import Mathlib

/-!
Shallow embedding of the ibm-granite-emerald pipeline (src/utils.py and the
retry/fallback section of src/app.py).  Python strings are modelled as
`List Char`; Python exceptions as `Except`/explicit exit codes; the two
remote collaborators (the model endpoint and the Neo4j submission) as
call-indexed oracles, matching the stubbing style of the testable
properties in the specification.
-/

namespace GraniteEmerald

/-- The ASCII whitespace characters removed by Python `str.strip()`
(space, tab, newline, carriage return, vertical tab, form feed). -/
def isPySpace (c : Char) : Bool :=
  c = ' ' || c = '\t' || c = '\n' || c = '\r' || c = Char.ofNat 11 || c = Char.ofNat 12

/-- Python `s.strip()`: drop whitespace from both ends. -/
def pyStrip (s : List Char) : List Char :=
  List.rdropWhile isPySpace (s.dropWhile isPySpace)

/-- Python `s.split('\n')`: split on every newline, keeping empty pieces;
the empty string yields `[[]]`, matching `"".split('\n') == [""]`. -/
def splitNL : List Char → List (List Char)
  | [] => [[]]
  | c :: cs =>
    if c = '\n' then [] :: splitNL cs
    else
      match splitNL cs with
      | [] => [[c]]
      | l :: ls => (c :: l) :: ls

/-- Python `'\n'.join(lines)`. -/
def joinNL : List (List Char) → List Char
  | [] => []
  | [l] => l
  | l :: l2 :: ls => l ++ '\n' :: joinNL (l2 :: ls)

/-- The delimiter literal appended by `special_delim_token` (src/utils.py). -/
def marker : List Char := (" |<special-end-tok>|").toList

/-- Embedding of `special_delim_token` (src/utils.py lines 306-333):
if the stripped input is empty return the empty string, otherwise strip,
split on newlines, append the marker to every line and rejoin. -/
def special_delim_token (input_text : List Char) : List Char :=
  if pyStrip input_text = [] then []
  else joinNL ((splitNL (pyStrip input_text)).map (fun line => line ++ marker))

/-- Embedding of `clean_cypher_query` (src/utils.py lines 268-278):
strip, split on newlines, drop the last line (`query_lines[:-1]`), rejoin. -/
def clean_cypher_query (cypher_query : List Char) : List Char :=
  joinNL ((splitNL (pyStrip cypher_query)).dropLast)

/-- Outcome of one HTTP POST to the model endpoint, supplied as an oracle:
either a generated text, a non-2xx status (`requests HTTPError`), or a
transport-level failure (`requests RequestException`). -/
inductive PostResult
  | ok (generated_text : List Char)
  | httpErr
  | reqErr
deriving DecidableEq

/-- The Python exceptions raised by the two LLM-calling functions. -/
inductive PyError
  | valueError      -- `ValueError` from the input validation
  | httpError       -- re-raised `HTTPError` (generate_text_granite_instruct)
  | requestError    -- re-raised `RequestException` (generate_text_granite_instruct)
  | exceptionMsg    -- generic `Exception` wrapper (generate_code_granite_instruct)
deriving DecidableEq

/-- The `input` field of the request body built by
`generate_text_granite_instruct` (src/utils.py lines 131-138). -/
def granite_text_prompt (system_instruct input_text : List Char) : List Char :=
  ("<|start_of_role|>system<|end_of_role|>\"You are Granite, an AI language model developed by IBM in 2024. You are an insightful assistant, carefully analyzing the provided text to identify the core themes, key topics, and important relationships. ").toList
  ++ system_instruct
  ++ ("\\<|end_of_text|> \n        <|start_of_role|>assistant<|end_of_role|> \n\n        %%start\n        ").toList
  ++ input_text
  ++ ("\n        %%end\n        ").toList

/-- The `input` field of the request body built by
`generate_code_granite_instruct` (src/utils.py lines 212-223). -/
def granite_code_prompt (input_text system_instruct : List Char) : List Char :=
  ("System:\n        You are an intelligent AI programming assistant, utilizing a Granite code language model developed by IBM. Your primary function is to assist users in programming tasks,\n        including code generation, code explanation, code fixing, generating unit tests, generating documentation, application modernization, vulnerability detection, function calling,\n        code translation, and all sorts of other software engineering tasks.\n        ").toList
  ++ system_instruct
  ++ ("\n\n        %%start\n        ").toList
  ++ input_text
  ++ ("\n        %%end\n        Answer:\n        ").toList

/-- Embedding of `generate_text_granite_instruct` (src/utils.py lines 106-176).
The single `requests.post` is modelled by the oracle `post`; the second
component counts how many POST requests were sent.  An empty argument makes
`all([...])` false, so the function raises `ValueError` before building the
request. -/
def generate_text_granite_instruct (system_instruct input_text my_token : List Char)
    (post : List Char → PostResult) : Except PyError (List Char) × Nat :=
  if system_instruct = [] || input_text = [] || my_token = [] then
    (Except.error PyError.valueError, 0)
  else
    match post (granite_text_prompt system_instruct input_text) with
    | PostResult.ok text => (Except.ok text, 1)
    | PostResult.httpErr => (Except.error PyError.httpError, 1)
    | PostResult.reqErr => (Except.error PyError.requestError, 1)

/-- Embedding of `generate_code_granite_instruct` (src/utils.py lines 186-262).
Same shape as the text variant, but both request failures are re-raised as a
generic `Exception`. -/
def generate_code_granite_instruct (input_text system_instruct my_token : List Char)
    (post : List Char → PostResult) : Except PyError (List Char) × Nat :=
  if input_text = [] || system_instruct = [] || my_token = [] then
    (Except.error PyError.valueError, 0)
  else
    match post (granite_code_prompt input_text system_instruct) with
    | PostResult.ok text => (Except.ok text, 1)
    | PostResult.httpErr => (Except.error PyError.exceptionMsg, 1)
    | PostResult.reqErr => (Except.error PyError.exceptionMsg, 1)

/-- The Python exceptions that can be raised by the two stubbed steps inside
the retry loop of src/app.py: `query_neo` (graph submission) and
`generate_code_granite_instruct` (the repair-stage LLM call). -/
inductive Exc
  | applyError
  | llmError
deriving DecidableEq

/-- Observable events of one run of the retry/fallback section:
the input handed to each repair-stage invocation (in call order) and the
query text of each `query_neo` submission (in call order). -/
structure RunLog where
  repairInputs : List (List Char)
  submits : List (List Char)
deriving DecidableEq

/-- How the `while` loop of src/app.py lines 85-109 terminates. -/
inductive LoopExit
  | broke              -- successful submission: `success = True; break`
  | condFalse          -- `attempt < retries` false (only possible when `retries = 0`)
  | raisedMaxRetries   -- uncaught `raise Exception("Query failed after multiple attempts.")`
  | raisedRepair (e : Exc)  -- uncaught exception from the repair call inside the handler
deriving DecidableEq

/-- `retries = 4` (src/app.py line 81); the spec calls this `maxAttempts`. -/
def retries : Nat := 4

/-- One run of the retry loop of src/app.py lines 85-109.  `repair k` is the
result of the (k+1)-st `generate_code_granite_instruct(cypher_query_draft,
system_instruct_2, TOKEN)` call made inside the loop (the stages are stubbed
by call index, as in the testable properties of the spec); `submit k` is the
result of the (k+1)-st `query_neo` call.  The `try` block runs the repair
call and then the submission; the first exception transfers control to the
`except Exception` handler, which performs one more repair call (an
exception there propagates out of the loop), increments `attempt`, and
raises when `attempt` reaches `rts`.  Recursion is on `fuel`, which equals
`rts - attempt` at every call. -/
def runLoop (repair : Nat → Except Exc (List Char)) (submit : Nat → Except Exc Unit)
    (draft : List Char) (rts : Nat) : Nat → Nat → RunLog → LoopExit × RunLog
  | 0, _, log => (LoopExit.condFalse, log)
  | fuel + 1, attempt, log =>
    let log1 : RunLog := { log with repairInputs := log.repairInputs ++ [draft] }
    let tryStep : Except Exc Unit × RunLog :=
      match repair log.repairInputs.length with
      | Except.error e => (Except.error e, log1)
      | Except.ok q =>
        let log2 : RunLog := { log1 with submits := log1.submits ++ [q] }
        match submit log1.submits.length with
        | Except.ok _ => (Except.ok (), log2)
        | Except.error e => (Except.error e, log2)
    match tryStep with
    | (Except.ok _, log2) => (LoopExit.broke, log2)
    | (Except.error _, log2) =>
      let log3 : RunLog := { log2 with repairInputs := log2.repairInputs ++ [draft] }
      match repair log2.repairInputs.length with
      | Except.error e2 => (LoopExit.raisedRepair e2, log3)
      | Except.ok _ =>
        if attempt + 1 = rts then (LoopExit.raisedMaxRetries, log3)
        else runLoop repair submit draft rts fuel (attempt + 1) log3

/-- How the whole retry-and-fallback section of src/app.py lines 81-119 ends. -/
inductive Outcome
  | success            -- loop broke after a successful submission
  | degradedExit       -- the `if not success` fallback ran and the run ended quietly
  | abortedMaxRetries  -- uncaught `Exception("Query failed after multiple attempts.")`
  | abortedRepair (e : Exc)  -- uncaught exception from the handler repair call
deriving DecidableEq

/-- The retry-and-fallback section of src/app.py lines 81-119: run the loop
from `attempt = 0`; if it ended with `success` still false (which requires the
`while` condition to fail, i.e. `rts = 0`), submit the truncated draft once,
swallowing any error from that final submission. -/
def runPipeline (repair : Nat → Except Exc (List Char)) (submit : Nat → Except Exc Unit)
    (draft : List Char) (rts : Nat) : Outcome × RunLog :=
  match runLoop repair submit draft rts rts 0 ⟨[], []⟩ with
  | (LoopExit.broke, log) => (Outcome.success, log)
  | (LoopExit.condFalse, log) =>
    (Outcome.degradedExit,
      { log with submits := log.submits ++ [clean_cypher_query draft] })
  | (LoopExit.raisedMaxRetries, log) => (Outcome.abortedMaxRetries, log)
  | (LoopExit.raisedRepair e, log) => (Outcome.abortedRepair e, log)

/-- Graph Applier stub that fails on its first `N` calls and succeeds
afterwards, as in the testable properties of the spec. -/
def failsThenOk (N : Nat) : Nat → Except Exc Unit :=
  fun k => if k < N then Except.error Exc.applyError else Except.ok ()

/-- The body of the `except Exception` handler of src/app.py lines 98-109,
as a standalone function (entered with the log as it stands when the `try`
block raises): one more repair call, whose own exception propagates; then
`attempt += 1` and the max-retries check.  `runLoop` reduces to this on
every raising iteration (`runLoop_succ` below), which lets proofs treat the
handler uniformly. -/
def handlerStep (repair : Nat → Except Exc (List Char)) (submit : Nat → Except Exc Unit)
    (draft : List Char) (rts : Nat) (fuel attempt : Nat) (log : RunLog) : LoopExit × RunLog :=
  let log3 : RunLog := { log with repairInputs := log.repairInputs ++ [draft] }
  match repair log.repairInputs.length with
  | Except.error e2 => (LoopExit.raisedRepair e2, log3)
  | Except.ok _ =>
    if attempt + 1 = rts then (LoopExit.raisedMaxRetries, log3)
    else runLoop repair submit draft rts fuel (attempt + 1) log3

/-- Sample draft used to instantiate general theorems on concrete input. -/
def sampleDraft : List Char := ("LINE1\nLINE2\nLINE3").toList

/-- Sample repaired query returned by the stubbed repair stage. -/
def sampleFinal : List Char := ("MERGE (a)-[r]->(b)").toList

/-- Sample repair instruction for instantiating the LLM-stage theorems. -/
def sampleInstr : List Char := ("Fix any issues in the cypher query").toList

/-- Sample bearer token for instantiating the LLM-stage theorems. -/
def sampleToken : List Char := ("token123").toList

/-- Sample network oracle for instantiating the LLM-stage theorems. -/
def samplePost : List Char → PostResult := fun _ => PostResult.ok (("MERGE (a)").toList)

/-! ## Helper lemmas about the line-splitting primitives -/

theorem splitNL_ne_nil (s : List Char) : splitNL s ≠ [] := by
  induction s with
  | nil => simp [splitNL]
  | cons c cs ih =>
    rw [splitNL]
    by_cases hc : c = '\n'
    · simp [hc]
    · rw [if_neg hc]
      cases h : splitNL cs with
      | nil => simp
      | cons l ls => simp

theorem not_nl_of_mem_splitNL (s : List Char) : ∀ l ∈ splitNL s, '\n' ∉ l := by
  induction s with
  | nil =>
    intro l hl
    simp [splitNL] at hl
    subst hl
    simp
  | cons c cs ih =>
    intro l hl
    rw [splitNL] at hl
    by_cases hc : c = '\n'
    · rw [if_pos hc] at hl
      rcases List.mem_cons.mp hl with rfl | hl2
      · simp
      · exact ih l hl2
    · rw [if_neg hc] at hl
      cases h : splitNL cs with
      | nil => exact absurd h (splitNL_ne_nil cs)
      | cons l0 ls =>
        rw [h] at hl
        rcases List.mem_cons.mp hl with rfl | hl2
        · intro hmem
          rcases List.mem_cons.mp hmem with h1 | h1
          · exact hc h1.symm
          · exact ih l0 (by rw [h]; exact List.mem_cons_self _ _) h1
        · exact ih l (by rw [h]; exact List.mem_cons_of_mem _ hl2)

theorem splitNL_of_not_nl (l : List Char) (h : '\n' ∉ l) : splitNL l = [l] := by
  induction l with
  | nil => rfl
  | cons c cs ih =>
    rw [splitNL]
    have hc : ¬ c = '\n' := fun e => h (by simp [e])
    rw [if_neg hc, ih (fun hm => h (List.mem_cons_of_mem _ hm))]

theorem splitNL_append_nl (l t : List Char) (h : '\n' ∉ l) :
    splitNL (l ++ '\n' :: t) = l :: splitNL t := by
  induction l with
  | nil => simp [splitNL]
  | cons c cs ih =>
    have hc : ¬ c = '\n' := fun e => h (by simp [e])
    rw [List.cons_append, splitNL, if_neg hc,
      ih (fun hm => h (List.mem_cons_of_mem _ hm))]

theorem splitNL_joinNL (ls : List (List Char)) (h : ∀ l ∈ ls, '\n' ∉ l) (h0 : ls ≠ []) :
    splitNL (joinNL ls) = ls := by
  induction ls with
  | nil => exact absurd rfl h0
  | cons l ls ih =>
    cases ls with
    | nil => exact splitNL_of_not_nl l (h l (by simp))
    | cons l2 ls2 =>
      rw [joinNL, splitNL_append_nl l _ (h l (by simp)),
        ih (fun x hx => h x (List.mem_cons_of_mem _ hx)) (by simp)]

theorem splitNL_cons_ne (c : Char) (t : List Char) (hc : ¬ c = '\n') :
    ∃ l ls, splitNL (c :: t) = (c :: l) :: ls := by
  rw [splitNL, if_neg hc]
  cases h : splitNL t with
  | nil => exact ⟨[], [], rfl⟩
  | cons l ls => exact ⟨l, ls, rfl⟩

theorem joinNL_cons_cons (c : Char) (l : List Char) (ls : List (List Char)) :
    ∃ t, joinNL ((c :: l) :: ls) = c :: t := by
  cases ls with
  | nil => exact ⟨l, rfl⟩
  | cons l2 ls2 => exact ⟨l ++ '\n' :: joinNL (l2 :: ls2), rfl⟩

theorem joinNL_ends_marker (ls : List (List Char)) (h0 : ls ≠ [])
    (h : ∀ l ∈ ls, ∃ f, l = f ++ marker) : ∃ g, joinNL ls = g ++ marker := by
  induction ls with
  | nil => exact absurd rfl h0
  | cons l ls ih =>
    cases ls with
    | nil =>
      obtain ⟨f, hf⟩ := h l (by simp)
      exact ⟨f, by simpa [joinNL] using hf⟩
    | cons l2 ls2 =>
      obtain ⟨g, hg⟩ := ih (by simp) (fun x hx => h x (List.mem_cons_of_mem _ hx))
      exact ⟨l ++ '\n' :: g, by rw [joinNL, hg]; simp⟩

/-! ## Helper lemmas about `pyStrip` -/

theorem dropWhile_head_false {α : Type} {p : α → Bool} {s : List α} {c : α} {t : List α}
    (h : s.dropWhile p = c :: t) : p c = false := by
  induction s with
  | nil => simp [List.dropWhile] at h
  | cons a as ih =>
    rw [List.dropWhile_cons] at h
    by_cases hp : p a
    · exact ih (by simpa [hp] using h)
    · have ha : a = c := by
        simpa [hp] using congrArg (fun l => l.head?) h
      rw [← ha]
      simpa using hp

theorem pyStrip_head (s : List Char) (hs : pyStrip s ≠ []) :
    ∃ c t, pyStrip s = c :: t ∧ isPySpace c = false := by
  cases h : pyStrip s with
  | nil => exact absurd h hs
  | cons c t =>
    refine ⟨c, t, rfl, ?_⟩
    have hpre : pyStrip s <+: s.dropWhile isPySpace := List.rdropWhile_prefix _ _
    obtain ⟨r, hr⟩ := hpre
    have hd : s.dropWhile isPySpace = c :: (t ++ r) := by
      rw [← hr, h]; simp
    exact dropWhile_head_false hd

theorem pyStrip_last (s : List Char) (hs : pyStrip s ≠ []) :
    ∃ g d, pyStrip s = g ++ [d] ∧ isPySpace d = false := by
  refine ⟨(pyStrip s).dropLast, (pyStrip s).getLast hs,
    (List.dropLast_append_getLast hs).symm, ?_⟩
  have hs' : List.rdropWhile isPySpace (s.dropWhile isPySpace) ≠ [] := hs
  have := List.rdropWhile_last_not isPySpace (s.dropWhile isPySpace) hs'
  simpa using this

theorem pyStrip_eq_self {s : List Char} (c : Char) (t g : List Char) (d : Char)
    (h1 : s = c :: t) (hc : isPySpace c = false)
    (h2 : s = g ++ [d]) (hd : isPySpace d = false) : pyStrip s = s := by
  have hdw : s.dropWhile isPySpace = s := by
    rw [h1]; simp [List.dropWhile_cons, hc]
  rw [pyStrip, hdw, h2]
  exact List.rdropWhile_concat_neg _ _ d (by simp [hd])

/-! ## Helper lemmas about the normalizer -/

theorem normalize_lines_aux (s : List Char) (h : pyStrip s ≠ []) :
    splitNL (special_delim_token s)
      = (splitNL (pyStrip s)).map (fun l => l ++ marker) := by
  rw [special_delim_token, if_neg h]
  apply splitNL_joinNL
  · intro l hl
    obtain ⟨l0, hl0, rfl⟩ := List.mem_map.mp hl
    intro hmem
    rcases List.mem_append.mp hmem with h1 | h1
    · exact not_nl_of_mem_splitNL _ l0 hl0 h1
    · have : '\n' ∉ marker := by decide
      exact this h1
  · intro hmap
    exact splitNL_ne_nil (pyStrip s) (List.map_eq_nil_iff.mp hmap)

theorem normalize_fixed (s : List Char) (h : pyStrip s ≠ []) :
    pyStrip (special_delim_token s) = special_delim_token s
      ∧ special_delim_token s ≠ [] := by
  obtain ⟨c, t, hct, hc⟩ := pyStrip_head s h
  have hcn : ¬ c = '\n' := by
    intro e
    rw [e] at hc
    simp [isPySpace] at hc
  obtain ⟨l0, ls0, hsplit⟩ := splitNL_cons_ne c t hcn
  have hy : special_delim_token s
      = joinNL ((splitNL (pyStrip s)).map (fun l => l ++ marker)) := by
    rw [special_delim_token, if_neg h]
  -- head of the normalized string is the non-space character `c`
  obtain ⟨t2, ht2⟩ :
      ∃ t2, joinNL ((splitNL (pyStrip s)).map (fun l => l ++ marker)) = c :: t2 := by
    rw [hct, hsplit]
    simpa using joinNL_cons_cons c (l0 ++ marker) (ls0.map (fun l => l ++ marker))
  -- the normalized string ends with the marker, whose last character is `|`
  obtain ⟨g, hg⟩ :
      ∃ g, joinNL ((splitNL (pyStrip s)).map (fun l => l ++ marker)) = g ++ marker := by
    apply joinNL_ends_marker
    · intro hmap
      exact splitNL_ne_nil (pyStrip s) (List.map_eq_nil_iff.mp hmap)
    · intro l hl
      obtain ⟨l0', _, rfl⟩ := List.mem_map.mp hl
      exact ⟨l0', rfl⟩
  have hmk : marker = (" |<special-end-tok>").toList ++ ['|'] := by decide
  refine ⟨?_, ?_⟩
  · refine pyStrip_eq_self c t2 (g ++ (" |<special-end-tok>").toList) '|'
      (by rw [hy, ht2]) hc ?_ (by decide)
    rw [hy, hg, hmk, List.append_assoc]
  · rw [hy, ht2]
    simp

/-! ## Helper lemmas about the retry loop -/

theorem runLoop_succ (repair : Nat → Except Exc (List Char)) (submit : Nat → Except Exc Unit)
    (draft : List Char) (rts fuel attempt : Nat) (log : RunLog) :
    runLoop repair submit draft rts (fuel + 1) attempt log =
      match repair log.repairInputs.length with
      | Except.error _ =>
          handlerStep repair submit draft rts fuel attempt
            { log with repairInputs := log.repairInputs ++ [draft] }
      | Except.ok q =>
          match submit log.submits.length with
          | Except.ok _ => (LoopExit.broke,
              { repairInputs := log.repairInputs ++ [draft],
                submits := log.submits ++ [q] })
          | Except.error _ =>
              handlerStep repair submit draft rts fuel attempt
                { repairInputs := log.repairInputs ++ [draft],
                  submits := log.submits ++ [q] } := by
  rw [runLoop]
  cases repair log.repairInputs.length with
  | error e => rfl
  | ok q =>
    cases submit log.submits.length with
    | ok u => rfl
    | error e => rfl

theorem handlerStep_eq (repair : Nat → Except Exc (List Char)) (submit : Nat → Except Exc Unit)
    (draft : List Char) (rts fuel attempt : Nat) (log : RunLog) :
    handlerStep repair submit draft rts fuel attempt log =
      match repair log.repairInputs.length with
      | Except.error e2 => (LoopExit.raisedRepair e2,
          { log with repairInputs := log.repairInputs ++ [draft] })
      | Except.ok _ =>
          if attempt + 1 = rts then
            (LoopExit.raisedMaxRetries,
              { log with repairInputs := log.repairInputs ++ [draft] })
          else runLoop repair submit draft rts fuel (attempt + 1)
            { log with repairInputs := log.repairInputs ++ [draft] } := by
  rw [handlerStep]

theorem handlerStep_ne_condFalse (repair : Nat → Except Exc (List Char))
    (submit : Nat → Except Exc Unit) (draft : List Char) (rts fuel attempt : Nat)
    (log : RunLog) (hsum : attempt + (fuel + 1) = rts)
    (ihfuel : ∀ attempt2 log2, attempt2 + fuel = rts → 0 < fuel →
      (runLoop repair submit draft rts fuel attempt2 log2).1 ≠ LoopExit.condFalse) :
    (handlerStep repair submit draft rts fuel attempt log).1 ≠ LoopExit.condFalse := by
  rw [handlerStep_eq]
  cases hr : repair log.repairInputs.length with
  | error e2 => simp
  | ok q =>
    by_cases hat : attempt + 1 = rts
    · simp [hat]
    · have hfuel : 0 < fuel := by omega
      simp only [if_neg hat]
      exact ihfuel (attempt + 1) _ (by omega) hfuel

theorem runLoop_ne_condFalse (repair : Nat → Except Exc (List Char))
    (submit : Nat → Except Exc Unit) (draft : List Char) (rts : Nat) :
    ∀ fuel attempt log, attempt + fuel = rts → 0 < fuel →
      (runLoop repair submit draft rts fuel attempt log).1 ≠ LoopExit.condFalse := by
  intro fuel
  induction fuel with
  | zero =>
    intro attempt log _ h0
    exact absurd h0 (by omega)
  | succ fuel ih =>
    intro attempt log hsum _
    rw [runLoop_succ]
    cases hr : repair log.repairInputs.length with
    | error e => exact handlerStep_ne_condFalse repair submit draft rts fuel attempt _ hsum ih
    | ok q =>
      cases hs : submit log.submits.length with
      | ok u => simp
      | error e => exact handlerStep_ne_condFalse repair submit draft rts fuel attempt _ hsum ih

theorem runPipeline_no_fallback (repair : Nat → Except Exc (List Char))
    (submit : Nat → Except Exc Unit) (draft : List Char) (rts : Nat) (h : 0 < rts) :
    ((runPipeline repair submit draft rts).1 = Outcome.degradedExit) = False := by
  apply eq_false
  intro hdeg
  have hne := runLoop_ne_condFalse repair submit draft rts rts 0 ⟨[], []⟩ (by omega) h
  rw [runPipeline] at hdeg
  revert hdeg hne
  cases runLoop repair submit draft rts rts 0 ⟨[], []⟩ with
  | mk exit log => cases exit <;> simp

theorem runLoop_failsThenOk (N rts : Nat) (draft q : List Char) (hN : N < rts) :
    ∀ fuel j, j + fuel = rts → j ≤ N →
      runLoop (fun _ => Except.ok q) (failsThenOk N) draft rts fuel j
          ⟨List.replicate (2 * j) draft, List.replicate j q⟩
        = (LoopExit.broke,
            ⟨List.replicate (2 * N + 1) draft, List.replicate (N + 1) q⟩) := by
  intro fuel
  induction fuel with
  | zero =>
    intro j h1 h2
    omega
  | succ fuel ih =>
    intro j h1 h2
    rw [runLoop_succ]
    simp only [List.length_replicate]
    by_cases hjN : j < N
    · have hsub : failsThenOk N j = Except.error Exc.applyError := by
        simp [failsThenOk, hjN]
      rw [hsub]
      rw [handlerStep_eq]
      simp only [List.length_append, List.length_replicate, List.length_cons,
        List.length_nil]
      have hat : ¬ j + 1 = rts := by omega
      rw [if_neg hat]
      have e1 : List.replicate (2 * j) draft ++ [draft] ++ [draft]
          = List.replicate (2 * (j + 1)) draft := by
        have h21 : 2 * (j + 1) = 2 * j + 1 + 1 := by omega
        rw [h21, List.replicate_succ', List.replicate_succ']
      have e2 : List.replicate j q ++ [q] = List.replicate (j + 1) q :=
        (List.replicate_succ' j q).symm
      have := ih (j + 1) (by omega) (by omega)
      rw [← e1, ← e2] at this
      exact this
    · have hj : j = N := by omega
      rw [hj]
      have hsub : failsThenOk N N = Except.ok () := by
        simp [failsThenOk]
      rw [hsub]
      have e1 : List.replicate (2 * N) draft ++ [draft]
          = List.replicate (2 * N + 1) draft := (List.replicate_succ' (2 * N) draft).symm
      have e2 : List.replicate N q ++ [q] = List.replicate (N + 1) q :=
        (List.replicate_succ' N q).symm
      rw [e1, e2]

theorem handlerStep_repairInputs (repair : Nat → Except Exc (List Char))
    (submit : Nat → Except Exc Unit) (draft : List Char) (rts fuel attempt : Nat)
    (log : RunLog)
    (ihfuel : ∀ attempt2 log2, (∀ x ∈ log2.repairInputs, x = draft) →
      ∀ x ∈ (runLoop repair submit draft rts fuel attempt2 log2).2.repairInputs, x = draft)
    (h : ∀ x ∈ log.repairInputs, x = draft) :
    ∀ x ∈ (handlerStep repair submit draft rts fuel attempt log).2.repairInputs, x = draft := by
  have hext : ∀ x ∈ log.repairInputs ++ [draft], x = draft := by
    intro x hx
    rcases List.mem_append.mp hx with h1 | h1
    · exact h x h1
    · simpa using h1
  rw [handlerStep_eq]
  cases hr : repair log.repairInputs.length with
  | error e2 => exact hext
  | ok q =>
    by_cases hat : attempt + 1 = rts
    · rw [if_pos hat]
      exact hext
    · rw [if_neg hat]
      exact ihfuel (attempt + 1) _ hext

theorem runLoop_repairInputs (repair : Nat → Except Exc (List Char))
    (submit : Nat → Except Exc Unit) (draft : List Char) (rts : Nat) :
    ∀ fuel attempt log, (∀ x ∈ log.repairInputs, x = draft) →
      ∀ x ∈ (runLoop repair submit draft rts fuel attempt log).2.repairInputs, x = draft := by
  intro fuel
  induction fuel with
  | zero =>
    intro attempt log h
    exact h
  | succ fuel ih =>
    intro attempt log h
    rw [runLoop_succ]
    cases hr : repair log.repairInputs.length with
    | error e =>
      exact handlerStep_repairInputs repair submit draft rts fuel attempt _ ih
        (by
          intro x hx
          rcases List.mem_append.mp hx with h1 | h1
          · exact h x h1
          · simpa using h1)
    | ok q =>
      cases hs : submit log.submits.length with
      | ok u =>
        intro x hx
        rcases List.mem_append.mp hx with h1 | h1
        · exact h x h1
        · simpa using h1
      | error e =>
        exact handlerStep_repairInputs repair submit draft rts fuel attempt _ ih
          (by
            intro x hx
            rcases List.mem_append.mp hx with h1 | h1
            · exact h x h1
            · simpa using h1)

theorem runLoop_first_try_repair_err (repair : Nat → Except Exc (List Char))
    (submit : Nat → Except Exc Unit) (draft : List Char) (m : Nat)
    (e : Exc) (q1 : List Char) (hr0 : repair 0 = Except.error e)
    (hr1 : repair 1 = Except.ok q1) :
    runLoop repair submit draft (m + 2) (m + 2) 0 ⟨[], []⟩
      = runLoop repair submit draft (m + 2) (m + 1) 1 ⟨[draft, draft], []⟩ := by
  show runLoop repair submit draft (m + 2) (m + 1 + 1) 0 ⟨[], []⟩ = _
  rw [runLoop_succ]
  simp only [List.length_nil, hr0]
  rw [handlerStep_eq]
  simp only [List.nil_append, List.length_cons, List.length_nil, hr1]
  rw [if_neg (by omega)]
  simp

theorem runLoop_first_submit_err (repair : Nat → Except Exc (List Char))
    (submit : Nat → Except Exc Unit) (draft : List Char) (m : Nat)
    (q0 : List Char) (e : Exc) (q1 : List Char) (hr0 : repair 0 = Except.ok q0)
    (hs0 : submit 0 = Except.error e) (hr1 : repair 1 = Except.ok q1) :
    runLoop repair submit draft (m + 2) (m + 2) 0 ⟨[], []⟩
      = runLoop repair submit draft (m + 2) (m + 1) 1 ⟨[draft, draft], [q0]⟩ := by
  show runLoop repair submit draft (m + 2) (m + 1 + 1) 0 ⟨[], []⟩ = _
  rw [runLoop_succ]
  simp only [List.length_nil, hr0, hs0]
  rw [handlerStep_eq]
  simp only [List.nil_append, List.length_cons, List.length_nil, hr1]
  rw [if_neg (by omega)]
  simp

theorem runLoop_handler_repair_err (repair : Nat → Except Exc (List Char))
    (submit : Nat → Except Exc Unit) (draft : List Char) (m : Nat) (e0 e1 : Exc)
    (h : repair 0 = Except.error e0
      ∨ ∃ q0, repair 0 = Except.ok q0 ∧ submit 0 = Except.error e0)
    (hr1 : repair 1 = Except.error e1) :
    ∃ log, runLoop repair submit draft (m + 2) (m + 2) 0 ⟨[], []⟩
      = (LoopExit.raisedRepair e1, log) := by
  show ∃ log, runLoop repair submit draft (m + 2) (m + 1 + 1) 0 ⟨[], []⟩ = _
  rw [runLoop_succ]
  rcases h with hr0 | ⟨q0, hr0, hs0⟩
  · simp only [List.length_nil, hr0]
    rw [handlerStep_eq]
    simp only [List.nil_append, List.length_cons, List.length_nil, hr1]
    exact ⟨_, rfl⟩
  · simp only [List.length_nil, hr0, hs0]
    rw [handlerStep_eq]
    simp only [List.nil_append, List.length_cons, List.length_nil, hr1]
    exact ⟨_, rfl⟩

/-! ## Claim theorems -/

/-- C1 (the fallback is dead code): with the Graph Applier stub failing on every
submission and the repair stage always succeeding, the run with `retries = 4` makes
exactly 4 submissions (and 8 repair calls) and aborts with the uncaught
`Exception("Query failed after multiple attempts.")`; moreover no oracle behavior
whatsoever can make the run with `retries = 4` reach the truncated-cypher fallback,
contradicting the claim that the pipeline performs one fallback submission and ends
without raising. -/
theorem C1_exhaustion_aborts_without_fallback :
    runPipeline (fun _ => Except.ok sampleFinal) (fun _ => Except.error Exc.applyError)
        sampleDraft retries
      = (Outcome.abortedMaxRetries,
          ⟨List.replicate 8 sampleDraft, List.replicate 4 sampleFinal⟩)
    ∧ ∀ repair submit draft,
        ((runPipeline repair submit draft retries).1 = Outcome.degradedExit) = False := by
  constructor
  · decide
  · intro repair submit draft
    exact runPipeline_no_fallback repair submit draft retries (by decide)

/-- C2 counterexample: with `maxAttempts = 4` and an applier stub that fails once and
then succeeds (`N = 1`), the controller reports success after `N + 1 = 2` submissions
but performs 3 repair invocations, so "exactly N+1 invocations of the Query Repair
Stage" is false. -/
theorem C2_counterexample :
    runPipeline (fun _ => Except.ok sampleFinal) (failsThenOk 1) sampleDraft retries
      = (Outcome.success,
          ⟨List.replicate 3 sampleDraft, List.replicate 2 sampleFinal⟩)
    ∧ (((runPipeline (fun _ => Except.ok sampleFinal) (failsThenOk 1) sampleDraft
          retries).2.repairInputs.length = 1 + 1) = False) :=
  ⟨by decide, eq_false (by decide)⟩

/-- C2 amended: if the Graph Applier fails on the first `N` submissions and succeeds
on the next, with `maxAttempts > N`, the controller reports success after exactly
`N + 1` submission attempts and exactly `2 * N + 1` repair invocations (each failing
iteration performs a second, redundant repair call inside the except handler). -/
theorem C2_success_after_n_failures (N rts : Nat) (draft q : List Char)
    (hN : N < rts) :
    runPipeline (fun _ => Except.ok q) (failsThenOk N) draft rts
      = (Outcome.success,
          ⟨List.replicate (2 * N + 1) draft, List.replicate (N + 1) q⟩) := by
  have h := runLoop_failsThenOk N rts draft q hN rts 0 (by omega) (by omega)
  rw [runPipeline]
  simp only [Nat.mul_zero, List.replicate_zero] at h
  rw [h]

/-- C2 witness: the amended statement instantiated at `N = 1`, `maxAttempts = 4`. -/
theorem C2_witness :
    1 < retries
    ∧ runPipeline (fun _ => Except.ok sampleFinal) (failsThenOk 1) sampleDraft retries
        = (Outcome.success,
            ⟨List.replicate (2 * 1 + 1) sampleDraft, List.replicate (1 + 1) sampleFinal⟩) :=
  ⟨by decide, C2_success_after_n_failures 1 retries sampleDraft sampleFinal (by decide)⟩

/-- C3 counterexample: the repair stage fails on its very first call inside the loop
(an LLM failure inside a retry iteration), yet the controller catches it, retries,
and the run ends in success — so the controller does not "only catch ApplyError",
and an LLM failure inside a retry iteration is not necessarily fatal. -/
theorem C3_counterexample :
    (fun k => if k = 0 then Except.error Exc.llmError else Except.ok sampleFinal :
        Nat → Except Exc (List Char)) 0 = Except.error Exc.llmError
    ∧ runPipeline
          (fun k => if k = 0 then Except.error Exc.llmError else Except.ok sampleFinal)
          (fun _ => Except.ok ()) sampleDraft retries
        = (Outcome.success, ⟨[sampleDraft, sampleDraft, sampleDraft], [sampleFinal]⟩)
    ∧ (((runPipeline
          (fun k => if k = 0 then Except.error Exc.llmError else Except.ok sampleFinal)
          (fun _ => Except.ok ()) sampleDraft retries).1
          = Outcome.abortedRepair Exc.llmError) = False) :=
  ⟨rfl, by decide, eq_false (by decide)⟩

/-- C3 amended: the `except Exception` clause catches any failure raised inside the
try block — whether from the repair call or from the Graph Applier submission — and
the loop proceeds to the next attempt; only a failure of the additional repair call
inside the except handler escapes the controller and is fatal to the run. -/
theorem C3_handler_catches_everything (repair : Nat → Except Exc (List Char))
    (submit : Nat → Except Exc Unit) (draft : List Char) (rts : Nat) (h2 : 2 ≤ rts) :
    (∀ e q1, repair 0 = Except.error e → repair 1 = Except.ok q1 →
        runLoop repair submit draft rts rts 0 ⟨[], []⟩
          = runLoop repair submit draft rts (rts - 1) 1 ⟨[draft, draft], []⟩)
    ∧ (∀ q0 e q1, repair 0 = Except.ok q0 → submit 0 = Except.error e →
          repair 1 = Except.ok q1 →
        runLoop repair submit draft rts rts 0 ⟨[], []⟩
          = runLoop repair submit draft rts (rts - 1) 1 ⟨[draft, draft], [q0]⟩)
    ∧ (∀ e0 e1,
        (repair 0 = Except.error e0
          ∨ ∃ q0, repair 0 = Except.ok q0 ∧ submit 0 = Except.error e0) →
        repair 1 = Except.error e1 →
        (runPipeline repair submit draft rts).1 = Outcome.abortedRepair e1) := by
  obtain ⟨m, rfl⟩ : ∃ m, rts = m + 2 := ⟨rts - 2, by omega⟩
  have hm : m + 2 - 1 = m + 1 := by omega
  rw [hm]
  refine ⟨?_, ?_, ?_⟩
  · intro e q1 hr0 hr1
    exact runLoop_first_try_repair_err repair submit draft m e q1 hr0 hr1
  · intro q0 e q1 hr0 hs0 hr1
    exact runLoop_first_submit_err repair submit draft m q0 e q1 hr0 hs0 hr1
  · intro e0 e1 h hr1
    obtain ⟨log, hlog⟩ := runLoop_handler_repair_err repair submit draft m e0 e1 h hr1
    rw [runPipeline, hlog]

/-- C3 witness: the amended statement applied to a repair stage that always fails:
the failure of the handler repair call aborts the run. -/
theorem C3_witness :
    2 ≤ retries
    ∧ (runPipeline (fun _ => Except.error Exc.llmError) (fun _ => Except.ok ())
        sampleDraft retries).1 = Outcome.abortedRepair Exc.llmError :=
  ⟨by decide,
    (C3_handler_catches_everything (fun _ => Except.error Exc.llmError)
        (fun _ => Except.ok ()) sampleDraft retries (by decide)).2.2
      Exc.llmError Exc.llmError (Or.inl rfl) rfl⟩

/-- C4 counterexample: the input `"\na\nb"` is non-empty and multi-line (it contains
a newline), its raw line count is 3, yet `normalize` returns a string with only 2
lines, because the leading newline is removed by the strip — so output lines are not
in one-to-one correspondence with the raw input lines. -/
theorem C4_counterexample :
    '\n' ∈ ("\na\nb").toList
    ∧ (splitNL (("\na\nb").toList)).length = 3
    ∧ (splitNL (special_delim_token (("\na\nb").toList))).length = 2
    ∧ ((splitNL (special_delim_token (("\na\nb").toList))).length
        = (splitNL (("\na\nb").toList)).length) = False :=
  ⟨by decide, by decide, by decide, eq_false (by decide)⟩

/-- C4 amended: for every input whose stripped form is non-empty, the lines of
`normalize`'s output are exactly the lines of the *stripped* input, in the same
order and in one-to-one correspondence, each with the exact marker
`" |<special-end-tok>|"` appended (so line count and order are preserved relative to
the stripped input; the raw input differs only when its leading/trailing whitespace
contains newlines). -/
theorem C4_normalize_lines (s : List Char) (h : pyStrip s ≠ []) :
    splitNL (special_delim_token s)
      = (splitNL (pyStrip s)).map (fun l => l ++ marker) :=
  normalize_lines_aux s h

/-- C4 witness: the amended statement at the two-line input `"a\nb"`. -/
theorem C4_witness :
    pyStrip (("a\nb").toList) ≠ []
    ∧ splitNL (special_delim_token (("a\nb").toList))
        = (splitNL (pyStrip (("a\nb").toList))).map (fun l => l ++ marker) :=
  ⟨by decide, C4_normalize_lines (("a\nb").toList) (by decide)⟩

/-- C5 counterexample: `" "` is a non-empty input on which `normalize` is idempotent
(both applications return the empty string), so "for every non-empty input,
normalize(normalize(x)) differs from normalize(x)" is false. -/
theorem C5_counterexample :
    ((" ").toList).length = 1
    ∧ special_delim_token (special_delim_token ((" ").toList))
        = special_delim_token ((" ").toList) :=
  ⟨by decide, by decide⟩

/-- C5 amended: for every input whose *stripped* form is non-empty, re-normalizing
an already-normalized string appends a second marker to every line, so
`normalize (normalize x)` differs from `normalize x`. -/
theorem C5_not_idempotent (s : List Char) (h : pyStrip s ≠ []) :
    splitNL (special_delim_token (special_delim_token s))
        = (splitNL (special_delim_token s)).map (fun l => l ++ marker)
    ∧ special_delim_token (special_delim_token s) ≠ special_delim_token s := by
  obtain ⟨hfix, hne⟩ := normalize_fixed s h
  have h2 : pyStrip (special_delim_token s) ≠ [] := by
    rw [hfix]; exact hne
  have hlines := normalize_lines_aux (special_delim_token s) h2
  rw [hfix] at hlines
  refine ⟨hlines, ?_⟩
  intro heq
  rw [heq] at hlines
  cases hL : splitNL (special_delim_token s) with
  | nil => exact splitNL_ne_nil _ hL
  | cons a as =>
    rw [hL] at hlines
    have h1 : a = a ++ marker := (List.cons_eq_cons.mp hlines).1
    have hlen := congrArg List.length h1
    rw [List.length_append] at hlen
    have hm : marker.length = 20 := by decide
    omega

/-- C5 witness: the amended statement at the single-line input
`"node1 edge node2"`. -/
theorem C5_witness :
    pyStrip (("node1 edge node2").toList) ≠ []
    ∧ (splitNL (special_delim_token (special_delim_token (("node1 edge node2").toList)))
        = (splitNL (special_delim_token (("node1 edge node2").toList))).map
            (fun l => l ++ marker)
      ∧ special_delim_token (special_delim_token (("node1 edge node2").toList))
          ≠ special_delim_token (("node1 edge node2").toList)) :=
  ⟨by decide, C5_not_idempotent (("node1 edge node2").toList) (by decide)⟩

/-- C6: both LLM-calling functions raise `ValueError` when any of their three string
arguments is empty, and in that case send zero network requests (the failure occurs
before any request is constructed). -/
theorem C6_empty_argument_invalid_input (si it tok : List Char)
    (post : List Char → PostResult) (h : si = [] ∨ it = [] ∨ tok = []) :
    generate_text_granite_instruct si it tok post = (Except.error PyError.valueError, 0)
    ∧ generate_code_granite_instruct it si tok post
        = (Except.error PyError.valueError, 0) := by
  rcases h with rfl | rfl | rfl <;>
    exact ⟨by simp [generate_text_granite_instruct],
      by simp [generate_code_granite_instruct]⟩

/-- C6 witness: empty document text, with non-empty instruction and token. -/
theorem C6_witness :
    (sampleInstr = [] ∨ ([] : List Char) = [] ∨ sampleToken = [])
    ∧ (generate_text_granite_instruct sampleInstr [] sampleToken samplePost
        = (Except.error PyError.valueError, 0)
      ∧ generate_code_granite_instruct [] sampleInstr sampleToken samplePost
          = (Except.error PyError.valueError, 0)) :=
  ⟨Or.inr (Or.inl rfl),
    C6_empty_argument_invalid_input sampleInstr [] sampleToken samplePost
      (Or.inr (Or.inl rfl))⟩

/-- C7: `normalize` maps the empty string to the empty string, and the
whitespace-only string `"   \n  "` to the empty string as well, without raising. -/
theorem C7_normalize_empty_inputs :
    special_delim_token (("").toList) = ("").toList
    ∧ special_delim_token (("   \n  ").toList) = ("").toList :=
  ⟨by decide, by decide⟩

/-- C8: `clean_cypher_query` drops the last line of the (stripped) draft; in
particular `"LINE1\nLINE2\nLINE3"` becomes exactly `"LINE1\nLINE2"`, and in general
the lines of the result are the lines of the stripped draft minus the final one. -/
theorem C8_truncation_drops_last_line :
    clean_cypher_query (("LINE1\nLINE2\nLINE3").toList) = ("LINE1\nLINE2").toList
    ∧ ∀ q : List Char, 2 ≤ (splitNL (pyStrip q)).length →
        splitNL (clean_cypher_query q) = (splitNL (pyStrip q)).dropLast := by
  constructor
  · decide
  · intro q hq
    rw [clean_cypher_query]
    apply splitNL_joinNL
    · intro l hl
      exact not_nl_of_mem_splitNL (pyStrip q) l ((List.dropLast_sublist _).subset hl)
    · intro hnil
      have hlen := congrArg List.length hnil
      rw [List.length_dropLast] at hlen
      simp at hlen
      omega

/-- C8 witness: the general clause at a three-line draft. -/
theorem C8_witness :
    2 ≤ (splitNL (pyStrip (("MATCH (n)\nRETURN n\nLIMIT 5").toList))).length
    ∧ splitNL (clean_cypher_query (("MATCH (n)\nRETURN n\nLIMIT 5").toList))
        = (splitNL (pyStrip (("MATCH (n)\nRETURN n\nLIMIT 5").toList))).dropLast :=
  ⟨by decide,
    C8_truncation_drops_last_line.2 (("MATCH (n)\nRETURN n\nLIMIT 5").toList) (by decide)⟩

/-- C9: every repair-stage invocation made by the retry controller receives the
original draft as its input — the draft is never regenerated or replaced across
retry iterations. -/
theorem C9_repair_always_gets_original_draft (repair : Nat → Except Exc (List Char))
    (submit : Nat → Except Exc Unit) (draft : List Char) (rts : Nat) (x : List Char)
    (hx : x ∈ (runPipeline repair submit draft rts).2.repairInputs) : x = draft := by
  have h := runLoop_repairInputs repair submit draft rts rts 0 ⟨[], []⟩ (by simp)
  rw [runPipeline] at hx
  revert hx
  cases hE : runLoop repair submit draft rts rts 0 ⟨[], []⟩ with
  | mk exit log =>
    rw [hE] at h
    cases exit <;> intro hx <;> exact h x (by simpa using hx)

/-- C9 witness: a one-iteration successful run; its single repair call received the
draft. -/
theorem C9_witness :
    sampleDraft ∈ (runPipeline (fun _ => Except.ok sampleFinal) (fun _ => Except.ok ())
        sampleDraft retries).2.repairInputs
    ∧ sampleDraft = sampleDraft :=
  ⟨by decide,
    C9_repair_always_gets_original_draft (fun _ => Except.ok sampleFinal)
      (fun _ => Except.ok ()) sampleDraft retries sampleDraft (by decide)⟩

/-- C10: for every input whose stripped form contains no newline — including the
empty string, whitespace-only strings, and any single-line draft —
`clean_cypher_query` returns the empty string. -/
theorem C10_single_line_truncates_to_empty (q : List Char)
    (h : '\n' ∉ pyStrip q) : clean_cypher_query q = [] := by
  rw [clean_cypher_query, splitNL_of_not_nl (pyStrip q) h]
  rfl

/-- C10 witness: a single-line draft surrounded by whitespace. -/
theorem C10_witness :
    '\n' ∉ pyStrip (("   MERGE (n:Node)   ").toList)
    ∧ clean_cypher_query (("   MERGE (n:Node)   ").toList) = [] :=
  ⟨by decide,
    C10_single_line_truncates_to_empty (("   MERGE (n:Node)   ").toList) (by decide)⟩

end GraniteEmerald
